import Mathlib

/-!
Verification of the streaming chat-completion response decoder of
sparrow-cli (Go package `client`, file with `ParseStreamResponse` and
`ParseStreamResponseWithCallback`).

The decoder consumes the lines of a `text/event-stream` body one at a
time, trims each line, classifies it (blank / `data: [DONE]` terminator /
`data: ` frame / other), JSON-decodes the payload of data frames into
`StreamChunk` values, and folds the decoded chunks into a single
`ResponseBody`.

Embedding choices:
- The `bufio.Scanner` is modelled by a `List String` of the lines it
  yields, together with an `Option String` holding the scan error the
  scanner would report once those lines are exhausted (`none` =
  end-of-stream without error).  `scanner.Err()` returns that error only
  when the loop actually exhausted the lines; a loop that breaks on the
  terminator never observes it, matching `bufio`'s contract.
- `encoding/json.Unmarshal` into `StreamChunk` is modelled by an oracle
  `decode : String → Option StreamChunk` (`none` = unmarshal error),
  quantified over in every theorem.
- The progress callback is pure in the embedding: the decoder returns
  the list of `(content, isFinished)` invocations it would perform.
- `logger.Warn` for malformed chunks is modelled by returning the list
  of skipped payloads.
- Go strings are Lean `String`s; byte slicing of the ASCII-framed lines
  is modelled on the character list.
-/

/-- `Role` from requests.go (`type Role string`). -/
def Role := String

/-- `AssistantRole Role = "assistant"` from requests.go. -/
def AssistantRole : String := "assistant"

/-- `Usage` — token usage statistics. Go `int` modelled as `Int`. -/
structure Usage where
  promptTokens : Int
  completionTokens : Int
  totalTokens : Int
deriving Repr, DecidableEq

/-- `Message` from requests.go: role plus content. -/
structure Message where
  role : String
  content : String
deriving Repr, DecidableEq

/-- `Choice` — a single response choice of the assembled body. -/
structure Choice where
  index : Int
  message : Message
  finishReason : String
deriving Repr, DecidableEq

/-- `ResponseBody` — the assembled (non-streaming-shaped) response. -/
structure ResponseBody where
  id : String
  object : String
  created : Int
  model : String
  choices : List Choice
  usage : Usage
deriving Repr, DecidableEq

/-- `StreamChunkDelta` — incremental data of a stream chunk. -/
structure StreamChunkDelta where
  role : String
  content : String
deriving Repr, DecidableEq

/-- `StreamChunkChoice` — one choice of a stream chunk; `finish_reason`
and `usage` are nullable pointers in Go, hence `Option` here. -/
structure StreamChunkChoice where
  index : Int
  delta : StreamChunkDelta
  finishReason : Option String
  usage : Option Usage
deriving Repr, DecidableEq

/-- `StreamChunk` — one decoded `data:` frame. -/
structure StreamChunk where
  id : String
  object : String
  created : Int
  model : String
  choices : List StreamChunkChoice
deriving Repr, DecidableEq

/-- The whitespace set of Go's `unicode.IsSpace` restricted to the
Latin-1 range: space, tab, LF, VT, FF, CR, NEL, NBSP.  (Go additionally
trims other Unicode space code points; the protocol lines at issue are
ASCII, where the two functions agree.) -/
def goIsSpace (c : Char) : Bool :=
  c = ' ' || c = '\t' || c = '\n' || c = '\x0B' || c = '\x0C' || c = '\x0D' ||
  c = '\x85' || c = ' '

/-- Go `strings.TrimSpace`: drop leading and trailing whitespace. -/
def goTrimSpace (s : String) : String :=
  String.mk (((s.data.dropWhile goIsSpace).reverse.dropWhile goIsSpace).reverse)

/-- Go `strings.HasPrefix s pre`: the first `len pre` characters of `s`
are exactly `pre`. -/
def goStartsWith (s pre : String) : Bool :=
  decide (s.data.take pre.data.length = pre.data)

/-- Go slicing `s[n:]` (character-level; coincides with byte slicing on
the ASCII frame prefix `"data: "`). -/
def goSliceFrom (s : String) (n : Nat) : String :=
  String.mk (s.data.drop n)

/-- Mutable state of the decode loop: the in-progress `result` and the
`strings.Builder` accumulating content. -/
structure LoopState where
  result : ResponseBody
  contentBuilder : String
deriving Repr, DecidableEq

/-- `result.Choices[0].FinishReason = fr` on a one-element (or longer)
choice list; no-op on an empty list (the Go code never reaches that
case: the list is created with one element). -/
def setHeadFR : List Choice → String → List Choice
  | [], _ => []
  | c :: cs, fr => { c with finishReason := fr } :: cs

/-- One iteration of the chunk-folding body shared by both Go decode
loops (latch metadata while `result.ID == ""`, then process the first
choice), returning the new state together with the callback invocations
this chunk triggers (empty content ⇒ no append, no callback). -/
def foldChunk (st : LoopState) (chunk : StreamChunk) : LoopState × List (String × Bool) :=
  let r0 := st.result
  let r1 := if r0.id = "" then
      { r0 with id := chunk.id, object := "chat.completion",
                created := chunk.created, model := chunk.model }
    else r0
  match chunk.choices with
  | [] => ({ result := r1, contentBuilder := st.contentBuilder }, [])
  | choice :: _ =>
    let cb := if choice.delta.content ≠ ""
      then st.contentBuilder ++ choice.delta.content else st.contentBuilder
    let evs : List (String × Bool) := if choice.delta.content ≠ ""
      then [(choice.delta.content, false)] else []
    let r2 := match choice.finishReason with
      | some fr => { r1 with choices := setHeadFR r1.choices fr }
      | none => r1
    let r3 := match choice.usage with
      | some u => { r2 with usage := u }
      | none => r2
    ({ result := r3, contentBuilder := cb }, evs)

/-- Output of the decode loop of `ParseStreamResponseWithCallback`:
final state, callback invocations in order, payloads logged as
malformed, and whether the `data: [DONE]` terminator was seen. -/
structure LoopOut where
  state : LoopState
  events : List (String × Bool)
  logs : List String
  sawDone : Bool
deriving Repr, DecidableEq

/-- The `for scanner.Scan()` loop of `ParseStreamResponseWithCallback`,
line by line: trim, skip blanks, break on `data: [DONE]` (after
notifying `("", true)`), decode `data: ` frames (logging and skipping
malformed ones), fold decoded chunks, ignore any other line. -/
def runLoop (decode : String → Option StreamChunk) :
    List String → LoopState → LoopOut
  | [], st => ⟨st, [], [], false⟩
  | raw :: rest, st =>
    let line := goTrimSpace raw
    if line = "" then runLoop decode rest st
    else if line = "data: [DONE]" then ⟨st, [("", true)], [], true⟩
    else if goStartsWith line "data: " then
      let payload := goSliceFrom line 6
      match decode payload with
      | none =>
        let out := runLoop decode rest st
        { out with logs := payload :: out.logs }
      | some chunk =>
        let p := foldChunk st chunk
        let out := runLoop decode rest p.1
        { out with events := p.2 ++ out.events }
    else runLoop decode rest st

/-- The initial `result` of both decoders: `make([]Choice, 1)` (all
fields zero-valued) followed by `result.Choices[0].Message.Role =
AssistantRole`. -/
def initResult : ResponseBody :=
  { id := "", object := "", created := 0, model := "",
    choices := [{ index := 0,
                  message := { role := AssistantRole, content := "" },
                  finishReason := "" }],
    usage := { promptTokens := 0, completionTokens := 0, totalTokens := 0 } }

/-- Initial loop state: fresh result and empty `strings.Builder`. -/
def initState : LoopState := { result := initResult, contentBuilder := "" }

/-- Final assembly after the loop:
`result.Choices[0].Message.Content = contentBuilder.String()` and
`result.Choices[0].Index = 0`. -/
def finishResult (st : LoopState) : ResponseBody :=
  { st.result with
    choices :=
      match st.result.choices with
      | [] => []
      | c :: cs =>
        { c with message := { c.message with content := st.contentBuilder },
                 index := 0 } :: cs }

deriving instance DecidableEq for Except

/-- Everything `ParseStreamResponseWithCallback` produces: the returned
`(*ResponseBody, error)` as an `Except`, plus the callback invocations
and the malformed-payload log entries (side effects in Go). -/
structure ParseOutput where
  result : Except String ResponseBody
  events : List (String × Bool)
  logs : List String
deriving Repr, DecidableEq

/-- `ParseStreamResponseWithCallback`: run the loop over the scanner's
lines, surface the scan error (only reachable when the loop exhausted
the lines rather than breaking on the terminator), else assemble. -/
def ParseStreamResponseWithCallback (decode : String → Option StreamChunk)
    (lines : List String) (scanErr : Option String) : ParseOutput :=
  let out := runLoop decode lines initState
  match scanErr, out.sawDone with
  | some e, false =>
    ⟨Except.error ("读取流式响应失败: " ++ e), out.events, out.logs⟩
  | _, _ => ⟨Except.ok (finishResult out.state), out.events, out.logs⟩

/-- Chunk-folding body of the callback-free `ParseStreamResponse`
(identical to `foldChunk` minus the callback). -/
def foldChunkNC (st : LoopState) (chunk : StreamChunk) : LoopState :=
  let r0 := st.result
  let r1 := if r0.id = "" then
      { r0 with id := chunk.id, object := "chat.completion",
                created := chunk.created, model := chunk.model }
    else r0
  match chunk.choices with
  | [] => { result := r1, contentBuilder := st.contentBuilder }
  | choice :: _ =>
    let cb := if choice.delta.content ≠ ""
      then st.contentBuilder ++ choice.delta.content else st.contentBuilder
    let r2 := match choice.finishReason with
      | some fr => { r1 with choices := setHeadFR r1.choices fr }
      | none => r1
    let r3 := match choice.usage with
      | some u => { r2 with usage := u }
      | none => r2
    { result := r3, contentBuilder := cb }

/-- The scan loop of `ParseStreamResponse`: same structure as `runLoop`
without the callback channel; returns state, malformed-payload logs and
the terminator flag. -/
def runLoopNC (decode : String → Option StreamChunk) :
    List String → LoopState → LoopState × List String × Bool
  | [], st => (st, [], false)
  | raw :: rest, st =>
    let line := goTrimSpace raw
    if line = "" then runLoopNC decode rest st
    else if line = "data: [DONE]" then (st, [], true)
    else if goStartsWith line "data: " then
      let payload := goSliceFrom line 6
      match decode payload with
      | none =>
        let o := runLoopNC decode rest st
        (o.1, payload :: o.2.1, o.2.2)
      | some chunk => runLoopNC decode rest (foldChunkNC st chunk)
    else runLoopNC decode rest st

/-- `ParseStreamResponse` (the callback-free decoder). -/
def ParseStreamResponse (decode : String → Option StreamChunk)
    (lines : List String) (scanErr : Option String) :
    Except String ResponseBody :=
  let o := runLoopNC decode lines initState
  match scanErr, o.2.2 with
  | some e, false => Except.error ("读取流式响应失败: " ++ e)
  | _, _ => Except.ok (finishResult o.1)

/-! ### Derived views of the loop, proved equal to it below -/

/-- The content fragment a chunk contributes: the delta content of its
first choice, or `""` when it has no choices. -/
def contentOf (c : StreamChunk) : String :=
  match c.choices with
  | [] => ""
  | ch :: _ => ch.delta.content

/-- The finish reason carried by a chunk's first choice, if any. -/
def frOf (c : StreamChunk) : Option String :=
  match c.choices with
  | [] => none
  | ch :: _ => ch.finishReason

/-- The usage carried by a chunk's first choice, if any. -/
def usageOf (c : StreamChunk) : Option Usage :=
  match c.choices with
  | [] => none
  | ch :: _ => ch.usage

/-- The callback invocations one folded chunk triggers. -/
def chunkEvents (c : StreamChunk) : List (String × Bool) :=
  if contentOf c ≠ "" then [(contentOf c, false)] else []

/-- One step of the metadata latch on the `(id, object, created, model)`
quadruple: while the accumulated id is empty, take the chunk's values and
the literal object type; afterwards keep the latched values. -/
def accumMeta (m : String × String × Int × String) (c : StreamChunk) :
    String × String × Int × String :=
  if m.1 = "" then (c.id, "chat.completion", c.created, c.model) else m

/-- One step of finish-reason accumulation: last non-null wins. -/
def accumFR (fr : String) (c : StreamChunk) : String := (frOf c).getD fr

/-- One step of usage accumulation: last non-null wins, wholesale. -/
def accumUsage (u : Usage) (c : StreamChunk) : Usage := (usageOf c).getD u

/-- `f1 ++ f2 ++ ... ++ fN`: content fragments in arrival order. -/
def concatContents : List StreamChunk → String
  | [] => ""
  | c :: cs => contentOf c ++ concatContents cs

/-- The metadata quadruple of an assembled body. -/
def metaOf (r : ResponseBody) : String × String × Int × String :=
  (r.id, r.object, r.created, r.model)

/-- A raw scanner line that the loop treats as the terminator. -/
def isDoneLine (raw : String) : Bool := goTrimSpace raw = "data: [DONE]"

/-- The chunks the loop folds, in order: decoded payloads of `data: `
frames strictly before the first terminator line. -/
def foldedChunks (decode : String → Option StreamChunk) :
    List String → List StreamChunk
  | [] => []
  | raw :: rest =>
    let line := goTrimSpace raw
    if line = "" then foldedChunks decode rest
    else if line = "data: [DONE]" then []
    else if goStartsWith line "data: " then
      match decode (goSliceFrom line 6) with
      | none => foldedChunks decode rest
      | some c => c :: foldedChunks decode rest
    else foldedChunks decode rest

/-- The malformed payloads the loop logs, in order: payloads of `data: `
frames before the first terminator that fail to decode. -/
def skippedPayloads (decode : String → Option StreamChunk) :
    List String → List String
  | [] => []
  | raw :: rest =>
    let line := goTrimSpace raw
    if line = "" then skippedPayloads decode rest
    else if line = "data: [DONE]" then []
    else if goStartsWith line "data: " then
      match decode (goSliceFrom line 6) with
      | none => goSliceFrom line 6 :: skippedPayloads decode rest
      | some _ => skippedPayloads decode rest
    else skippedPayloads decode rest

/-- Folding a list of already-decoded chunks through `foldChunk`. -/
def listFold (st : LoopState) (cs : List StreamChunk) : LoopState :=
  cs.foldl (fun s c => (foldChunk s c).1) st

/-- The `ResponseBody` assembled from a list of folded chunks (proved
below to be exactly what the decoders return on every no-error path). -/
def assembled (cs : List StreamChunk) : ResponseBody :=
  { id := (cs.foldl accumMeta ("", "", 0, "")).1,
    object := (cs.foldl accumMeta ("", "", 0, "")).2.1,
    created := (cs.foldl accumMeta ("", "", 0, "")).2.2.1,
    model := (cs.foldl accumMeta ("", "", 0, "")).2.2.2,
    choices := [{ index := 0,
                  message := { role := AssistantRole,
                               content := concatContents cs },
                  finishReason := cs.foldl accumFR "" }],
    usage := cs.foldl accumUsage
      { promptTokens := 0, completionTokens := 0, totalTokens := 0 } }

/-! ### Loop characterization -/

lemma foldChunk_snd (st : LoopState) (c : StreamChunk) :
    (foldChunk st c).2 = chunkEvents c := by
  unfold foldChunk chunkEvents contentOf
  cases hc : c.choices with
  | nil => simp
  | cons ch rest => simp

lemma runLoop_spec (decode : String → Option StreamChunk) :
    ∀ (lines : List String) (st : LoopState),
    runLoop decode lines st =
      ⟨listFold st (foldedChunks decode lines),
       ((foldedChunks decode lines).map chunkEvents).flatten
         ++ (if lines.any isDoneLine then [("", true)] else []),
       skippedPayloads decode lines,
       lines.any isDoneLine⟩ := by
  intro lines
  induction lines with
  | nil => intro st; simp [runLoop, foldedChunks, skippedPayloads, listFold]
  | cons raw rest ih =>
    intro st
    by_cases h1 : goTrimSpace raw = ""
    · have hd : isDoneLine raw = false := by
        simp [isDoneLine, h1]
      simp [runLoop, foldedChunks, skippedPayloads, h1, hd, ih]
    · by_cases h2 : goTrimSpace raw = "data: [DONE]"
      · have hd : isDoneLine raw = true := by simp [isDoneLine, h2]
        simp [runLoop, foldedChunks, skippedPayloads, h1, h2, hd, listFold]
      · have hd : isDoneLine raw = false := by simp [isDoneLine, h2]
        by_cases h3 : goStartsWith (goTrimSpace raw) "data: " = true
        · cases hdec : decode (goSliceFrom (goTrimSpace raw) 6) with
          | none =>
            simp [runLoop, foldedChunks, skippedPayloads, h1, h2, h3, hd, hdec, ih]
          | some c =>
            simp [runLoop, foldedChunks, skippedPayloads, h1, h2, h3, hd, hdec, ih,
                  listFold, foldChunk_snd]
        · simp [runLoop, foldedChunks, skippedPayloads, h1, h2, h3, hd, ih]

lemma foldChunk_fst_spec (st : LoopState) (ch : Choice) (c : StreamChunk)
    (h : st.result.choices = [ch]) :
    (foldChunk st c).1 =
      { result :=
        { id := (accumMeta (metaOf st.result) c).1,
          object := (accumMeta (metaOf st.result) c).2.1,
          created := (accumMeta (metaOf st.result) c).2.2.1,
          model := (accumMeta (metaOf st.result) c).2.2.2,
          choices := [{ ch with finishReason := accumFR ch.finishReason c }],
          usage := accumUsage st.result.usage c },
        contentBuilder := st.contentBuilder ++ contentOf c } := by
  obtain ⟨⟨i, o, cr, mo, chs, u⟩, cb⟩ := st
  simp only [LoopState.result] at h
  subst h
  simp only [foldChunk, accumMeta, accumFR, accumUsage, metaOf, contentOf,
    frOf, usageOf]
  cases hc : c.choices with
  | nil =>
    by_cases hid : i = "" <;>
      simp [hid, hc, String.append_empty, setHeadFR]
  | cons cch rest =>
    by_cases hid : i = "" <;>
      cases hfr : cch.finishReason <;> cases hu : cch.usage <;>
        by_cases hcnt : cch.delta.content = "" <;>
          simp [hid, hc, hfr, hu, hcnt, setHeadFR, String.append_empty]

lemma listFold_spec :
    ∀ (cs : List StreamChunk) (st : LoopState) (ch : Choice),
    st.result.choices = [ch] →
    listFold st cs =
      { result :=
        { id := (cs.foldl accumMeta (metaOf st.result)).1,
          object := (cs.foldl accumMeta (metaOf st.result)).2.1,
          created := (cs.foldl accumMeta (metaOf st.result)).2.2.1,
          model := (cs.foldl accumMeta (metaOf st.result)).2.2.2,
          choices := [{ ch with finishReason := cs.foldl accumFR ch.finishReason }],
          usage := cs.foldl accumUsage st.result.usage },
        contentBuilder := cs.foldl (fun b c => b ++ contentOf c) st.contentBuilder } := by
  intro cs
  induction cs with
  | nil =>
    intro st ch h
    obtain ⟨⟨i, o, cr, mo, chs, u⟩, cb⟩ := st
    simp only [LoopState.result] at h
    subst h
    simp [listFold, metaOf]
  | cons c cs ih =>
    intro st ch h
    have hstep := foldChunk_fst_spec st ch c h
    have hnext : ((foldChunk st c).1).result.choices
        = [{ ch with finishReason := accumFR ch.finishReason c }] := by
      rw [hstep]
    have hrest := ih (foldChunk st c).1
      { ch with finishReason := accumFR ch.finishReason c } hnext
    have hloop : listFold st (c :: cs) = listFold (foldChunk st c).1 cs := by
      simp [listFold]
    rw [hloop, hrest, hstep]
    simp [metaOf]

lemma foldl_content (cs : List StreamChunk) :
    ∀ b : String, cs.foldl (fun b c => b ++ contentOf c) b = b ++ concatContents cs := by
  induction cs with
  | nil => intro b; simp [concatContents, String.append_empty]
  | cons c cs ih =>
    intro b
    simp [concatContents, ih, String.append_assoc]

lemma finish_assembled (cs : List StreamChunk) :
    finishResult (listFold initState cs) = assembled cs := by
  rw [listFold_spec cs initState
    { index := 0, message := { role := AssistantRole, content := "" },
      finishReason := "" } rfl]
  simp [finishResult, assembled, initState, initResult, metaOf, foldl_content,
    String.empty_append]

/-- Full characterization of `ParseStreamResponseWithCallback` in terms
of the derived views. -/
lemma parse_spec (decode : String → Option StreamChunk)
    (lines : List String) (scanErr : Option String) :
    ParseStreamResponseWithCallback decode lines scanErr =
      ⟨(match scanErr, lines.any isDoneLine with
        | some e, false => Except.error ("读取流式响应失败: " ++ e)
        | _, _ => Except.ok (assembled (foldedChunks decode lines))),
       ((foldedChunks decode lines).map chunkEvents).flatten
         ++ (if lines.any isDoneLine then [("", true)] else []),
       skippedPayloads decode lines⟩ := by
  unfold ParseStreamResponseWithCallback
  rw [runLoop_spec]
  cases scanErr <;> cases h : lines.any isDoneLine <;>
    simp [h, finish_assembled]

lemma flatten_chunkEvents (cs : List StreamChunk) :
    (cs.map chunkEvents).flatten =
      ((cs.map contentOf).filter (fun s => s ≠ "")).map (fun s => (s, false)) := by
  induction cs with
  | nil => simp
  | cons c cs ih =>
    by_cases h : contentOf c = "" <;> simp [chunkEvents, h, ih]

lemma foldChunkNC_eq (st : LoopState) (c : StreamChunk) :
    foldChunkNC st c = (foldChunk st c).1 := by
  unfold foldChunkNC foldChunk
  cases hc : c.choices <;> simp [hc]

lemma runLoopNC_spec (decode : String → Option StreamChunk) :
    ∀ (lines : List String) (st : LoopState),
    runLoopNC decode lines st =
      ((runLoop decode lines st).state, (runLoop decode lines st).logs,
       (runLoop decode lines st).sawDone) := by
  intro lines
  induction lines with
  | nil => intro st; simp [runLoopNC, runLoop]
  | cons raw rest ih =>
    intro st
    by_cases h1 : goTrimSpace raw = ""
    · simp [runLoopNC, runLoop, h1, ih]
    · by_cases h2 : goTrimSpace raw = "data: [DONE]"
      · simp [runLoopNC, runLoop, h1, h2]
      · by_cases h3 : goStartsWith (goTrimSpace raw) "data: " = true
        · cases hdec : decode (goSliceFrom (goTrimSpace raw) 6) with
          | none => simp [runLoopNC, runLoop, h1, h2, h3, hdec, ih]
          | some c =>
            simp [runLoopNC, runLoop, h1, h2, h3, hdec, ih, foldChunkNC_eq]
        · simp [runLoopNC, runLoop, h1, h2, h3, ih]

lemma getLast?_getD_cons {β : Type} (x : β) (xs : List β) (b : β) :
    ((x :: xs).getLast?).getD b = (xs.getLast?).getD x := by
  cases xs with
  | nil => simp
  | cons y ys =>
    rw [List.getLast?_cons_cons]
    cases h : (y :: ys).getLast? with
    | none => simp at h
    | some v => simp

lemma foldl_getD_getLast {α β : Type} (f : α → Option β) :
    ∀ (l : List α) (b : β),
    l.foldl (fun acc x => (f x).getD acc) b = ((l.filterMap f).getLast?).getD b := by
  intro l
  induction l with
  | nil => intro b; simp
  | cons x l ih =>
    intro b
    cases hf : f x with
    | none => simp [List.filterMap_cons, hf, ih]
    | some v => simp [List.filterMap_cons, hf, ih, getLast?_getD_cons]

lemma foldl_accumMeta_stable :
    ∀ (l : List StreamChunk) (m : String × String × Int × String),
    m.1 ≠ "" → l.foldl accumMeta m = m := by
  intro l
  induction l with
  | nil => intro m _; rfl
  | cons c l ih =>
    intro m hm
    have hstep : accumMeta m c = m := by simp [accumMeta, hm]
    simp only [List.foldl_cons, hstep]
    exact ih m hm

lemma foldl_accumMeta_empty :
    ∀ (pre : List StreamChunk) (m : String × String × Int × String),
    (∀ x ∈ pre, x.id = "") → m.1 = "" → (pre.foldl accumMeta m).1 = "" := by
  intro pre
  induction pre with
  | nil => intro m _ hm; simpa using hm
  | cons c l ih =>
    intro m hids hm
    have hc : c.id = "" := hids c (by simp)
    have hstep : (accumMeta m c).1 = "" := by simp [accumMeta, hm, hc]
    simp only [List.foldl_cons]
    exact ih _ (fun x hx => hids x (by simp [hx])) hstep

/-! ### Per-line classification bundles, used in claim hypotheses -/

/-- `raw` is a well-formed `data: ` frame whose payload decodes to `c`. -/
def IsChunkLine (decode : String → Option StreamChunk) (raw : String)
    (c : StreamChunk) : Prop :=
  goTrimSpace raw ≠ "" ∧ goTrimSpace raw ≠ "data: [DONE]" ∧
  goStartsWith (goTrimSpace raw) "data: " = true ∧
  decode (goSliceFrom (goTrimSpace raw) 6) = some c

/-- `raw` is a `data: ` frame whose payload fails to decode. -/
def IsMalformedLine (decode : String → Option StreamChunk) (raw : String) : Prop :=
  goTrimSpace raw ≠ "" ∧ goTrimSpace raw ≠ "data: [DONE]" ∧
  goStartsWith (goTrimSpace raw) "data: " = true ∧
  decode (goSliceFrom (goTrimSpace raw) 6) = none

lemma isDoneLine_false_of_chunk {decode raw c} (h : IsChunkLine decode raw c) :
    isDoneLine raw = false := by
  simp [isDoneLine, h.2.1]

lemma isDoneLine_false_of_malformed {decode raw} (h : IsMalformedLine decode raw) :
    isDoneLine raw = false := by
  simp [isDoneLine, h.2.1]

lemma foldedChunks_cons_chunk {decode raw c} (rest : List String)
    (h : IsChunkLine decode raw c) :
    foldedChunks decode (raw :: rest) = c :: foldedChunks decode rest := by
  obtain ⟨h1, h2, h3, h4⟩ := h
  simp [foldedChunks, h1, h2, h3, h4]

lemma foldedChunks_cons_malformed {decode raw} (rest : List String)
    (h : IsMalformedLine decode raw) :
    foldedChunks decode (raw :: rest) = foldedChunks decode rest := by
  obtain ⟨h1, h2, h3, h4⟩ := h
  simp [foldedChunks, h1, h2, h3, h4]

lemma skippedPayloads_cons_chunk {decode raw c} (rest : List String)
    (h : IsChunkLine decode raw c) :
    skippedPayloads decode (raw :: rest) = skippedPayloads decode rest := by
  obtain ⟨h1, h2, h3, h4⟩ := h
  simp [skippedPayloads, h1, h2, h3, h4]

lemma skippedPayloads_cons_malformed {decode raw} (rest : List String)
    (h : IsMalformedLine decode raw) :
    skippedPayloads decode (raw :: rest) =
      goSliceFrom (goTrimSpace raw) 6 :: skippedPayloads decode rest := by
  obtain ⟨h1, h2, h3, h4⟩ := h
  simp [skippedPayloads, h1, h2, h3, h4]

lemma foldedChunks_append (decode : String → Option StreamChunk) :
    ∀ (pre rest : List String), (∀ l ∈ pre, isDoneLine l = false) →
    foldedChunks decode (pre ++ rest) =
      foldedChunks decode pre ++ foldedChunks decode rest := by
  intro pre
  induction pre with
  | nil => intro rest _; simp [foldedChunks]
  | cons raw pre ih =>
    intro rest h
    have hr : isDoneLine raw = false := h raw (by simp)
    have hr2 : ¬ goTrimSpace raw = "data: [DONE]" := by
      intro hc; simp [isDoneLine, hc] at hr
    have htail : ∀ l ∈ pre, isDoneLine l = false :=
      fun l hl => h l (by simp [hl])
    by_cases h1 : goTrimSpace raw = ""
    · simp [foldedChunks, h1, ih rest htail]
    · by_cases h3 : goStartsWith (goTrimSpace raw) "data: " = true
      · cases hdec : decode (goSliceFrom (goTrimSpace raw) 6) with
        | none => simp [foldedChunks, h1, hr2, h3, hdec, ih rest htail]
        | some c => simp [foldedChunks, h1, hr2, h3, hdec, ih rest htail]
      · simp [foldedChunks, h1, hr2, h3, ih rest htail]

lemma skippedPayloads_append (decode : String → Option StreamChunk) :
    ∀ (pre rest : List String), (∀ l ∈ pre, isDoneLine l = false) →
    skippedPayloads decode (pre ++ rest) =
      skippedPayloads decode pre ++ skippedPayloads decode rest := by
  intro pre
  induction pre with
  | nil => intro rest _; simp [skippedPayloads]
  | cons raw pre ih =>
    intro rest h
    have hr : isDoneLine raw = false := h raw (by simp)
    have hr2 : ¬ goTrimSpace raw = "data: [DONE]" := by
      intro hc; simp [isDoneLine, hc] at hr
    have htail : ∀ l ∈ pre, isDoneLine l = false :=
      fun l hl => h l (by simp [hl])
    by_cases h1 : goTrimSpace raw = ""
    · simp [skippedPayloads, h1, ih rest htail]
    · by_cases h3 : goStartsWith (goTrimSpace raw) "data: " = true
      · cases hdec : decode (goSliceFrom (goTrimSpace raw) 6) with
        | none => simp [skippedPayloads, h1, hr2, h3, hdec, ih rest htail]
        | some c => simp [skippedPayloads, h1, hr2, h3, hdec, ih rest htail]
      · simp [skippedPayloads, h1, hr2, h3, ih rest htail]

lemma foldedChunks_done_cons (decode : String → Option StreamChunk)
    (raw : String) (post : List String) (h : isDoneLine raw = true) :
    foldedChunks decode (raw :: post) = [] := by
  have h2 : goTrimSpace raw = "data: [DONE]" := by
    simpa [isDoneLine] using h
  have h1 : ¬ goTrimSpace raw = "" := by simp [h2]
  simp [foldedChunks, h1, h2]

lemma skippedPayloads_done_cons (decode : String → Option StreamChunk)
    (raw : String) (post : List String) (h : isDoneLine raw = true) :
    skippedPayloads decode (raw :: post) = [] := by
  have h2 : goTrimSpace raw = "data: [DONE]" := by
    simpa [isDoneLine] using h
  have h1 : ¬ goTrimSpace raw = "" := by simp [h2]
  simp [skippedPayloads, h1, h2]

/-! ### Concrete sample chunks and a sample decode oracle, used by
counterexamples and witnesses -/

/-- A chunk whose id is empty but whose model/created are set. -/
def chunkA : StreamChunk :=
  { id := "", object := "chat.completion.chunk", created := 5, model := "A",
    choices := [] }

/-- A later chunk with a non-empty id and different metadata. -/
def chunkB : StreamChunk :=
  { id := "x", object := "chat.completion.chunk", created := 7, model := "B",
    choices := [] }

/-- First chunk of the spec's end-to-end example (content `"Hi"`). -/
def chunk1 : StreamChunk :=
  { id := "c1", object := "chat.completion.chunk", created := 1, model := "m",
    choices := [{ index := 0,
                  delta := { role := "assistant", content := "Hi" },
                  finishReason := none, usage := none }] }

/-- Second chunk of the spec's end-to-end example (content `" there"`,
finish reason `"stop"`, usage `{3, 2, 5}`). -/
def chunk2 : StreamChunk :=
  { id := "c1", object := "chat.completion.chunk", created := 1, model := "m",
    choices := [{ index := 0,
                  delta := { role := "", content := " there" },
                  finishReason := some "stop",
                  usage := some { promptTokens := 3, completionTokens := 2,
                                  totalTokens := 5 } }] }

/-- A sample JSON-decode oracle: a finite table of payloads. -/
def sampleDecode : String → Option StreamChunk := fun s =>
  if s = "{1}" then some chunk1
  else if s = "{2}" then some chunk2
  else if s = "{A}" then some chunkA
  else if s = "{B}" then some chunkB
  else none

/-! ### Claims -/

/-- Claim C1, counterexample.  The claim says id/model/created are set
exactly once, from the first chunk observed, and never overwritten.  But
the latch is keyed on `result.ID == ""`: the first observed chunk
(`chunkA`, model `"A"`, created `5`, empty id) writes the fields and is
then overwritten by the second chunk (`chunkB`), so the final metadata
is `"x"`/`"B"`/`7`, not that of the first chunk observed (which carried
the non-empty values `"A"` and `5`). -/
theorem C1_metadata_latch_counterexample :
    (sampleDecode "{A}" = some chunkA ∧ chunkA.model = "A" ∧ chunkA.created = 5) ∧
    (ParseStreamResponseWithCallback sampleDecode
        ["data: {A}", "data: {B}"] none).result =
      Except.ok
        { id := "x", object := "chat.completion", created := 7, model := "B",
          choices := [{ index := 0,
                        message := { role := "assistant", content := "" },
                        finishReason := "" }],
          usage := { promptTokens := 0, completionTokens := 0,
                     totalTokens := 0 } } := by
  decide

/-- Claim C1 (amended): the final result's id, model and created equal
those of the first folded chunk whose id is non-empty (never a later
one), and the object field is set to `"chat.completion"` alongside;
chunks with an empty id that precede it do write these fields but can be
overwritten until such a chunk arrives. -/
theorem C1_metadata_latch (decode : String → Option StreamChunk)
    (lines : List String) (pre post : List StreamChunk) (c : StreamChunk)
    (hsplit : foldedChunks decode lines = pre ++ c :: post)
    (hpre : ∀ x ∈ pre, x.id = "") (hc : c.id ≠ "") :
    (ParseStreamResponseWithCallback decode lines none).result =
      Except.ok (assembled (foldedChunks decode lines)) ∧
    (assembled (foldedChunks decode lines)).id = c.id ∧
    (assembled (foldedChunks decode lines)).object = "chat.completion" ∧
    (assembled (foldedChunks decode lines)).created = c.created ∧
    (assembled (foldedChunks decode lines)).model = c.model := by
  have hmeta : (foldedChunks decode lines).foldl accumMeta ("", "", 0, "") =
      (c.id, "chat.completion", c.created, c.model) := by
    rw [hsplit, List.foldl_append, List.foldl_cons]
    have hm : (pre.foldl accumMeta ("", "", 0, "")).1 = "" :=
      foldl_accumMeta_empty pre _ hpre rfl
    have hlatch : accumMeta (pre.foldl accumMeta ("", "", 0, "")) c =
        (c.id, "chat.completion", c.created, c.model) := by
      simp [accumMeta, hm]
    rw [hlatch]
    exact foldl_accumMeta_stable post _ (by simpa using hc)
  refine ⟨by rw [parse_spec], ?_, ?_, ?_, ?_⟩ <;> simp [assembled, hmeta]

/-- Claim C1, witness instantiation. -/
theorem C1_metadata_latch_witness :
    (ParseStreamResponseWithCallback sampleDecode
        ["data: {A}", "data: {B}"] none).result =
      Except.ok (assembled (foldedChunks sampleDecode ["data: {A}", "data: {B}"])) ∧
    (assembled (foldedChunks sampleDecode ["data: {A}", "data: {B}"])).id = chunkB.id ∧
    (assembled (foldedChunks sampleDecode ["data: {A}", "data: {B}"])).object =
      "chat.completion" ∧
    (assembled (foldedChunks sampleDecode ["data: {A}", "data: {B}"])).created =
      chunkB.created ∧
    (assembled (foldedChunks sampleDecode ["data: {A}", "data: {B}"])).model =
      chunkB.model :=
  C1_metadata_latch sampleDecode ["data: {A}", "data: {B}"] [chunkA] [] chunkB
    (by decide) (by decide) (by decide)

/-- Claim C2: the final content is `f1 ++ f2 ++ ... ++ fN`, the content
fragments of the folded chunks in exact arrival order (an empty fragment
contributes nothing to the concatenation), and the non-finished callback
notifications are exactly the non-empty fragments, in order — empty
fragments are never notified. -/
theorem C2_fragment_concatenation (decode : String → Option StreamChunk)
    (lines : List String) :
    (ParseStreamResponseWithCallback decode lines none).result =
      Except.ok (assembled (foldedChunks decode lines)) ∧
    (assembled (foldedChunks decode lines)).choices.map
        (fun c => c.message.content) =
      [concatContents (foldedChunks decode lines)] ∧
    (ParseStreamResponseWithCallback decode lines none).events.filter
        (fun e => !e.2) =
      (((foldedChunks decode lines).map contentOf).filter (fun s => s ≠ "")).map
        (fun s => (s, false)) := by
  refine ⟨by rw [parse_spec], by simp [assembled], ?_⟩
  rw [parse_spec]
  simp only [flatten_chunkEvents, List.filter_append]
  cases h : lines.any isDoneLine <;>
    simp [List.filter_map, Function.comp_def]

/-- Claim C3: on a stream ending in the terminator line, the notifier
sequence is exactly one `(fragment, false)` per non-empty content
fragment, in arrival order, followed by a single `("", true)` — and
overall exactly one finished notification; nothing follows it. -/
theorem C3_terminator_dispatch (decode : String → Option StreamChunk)
    (body : List String) (t : String)
    (hbody : ∀ l ∈ body, isDoneLine l = false) (ht : isDoneLine t = true) :
    (ParseStreamResponseWithCallback decode (body ++ [t]) none).events =
      (((foldedChunks decode body).map contentOf).filter (fun s => s ≠ "")).map
        (fun s => (s, false)) ++ [("", true)] ∧
    ((ParseStreamResponseWithCallback decode (body ++ [t]) none).events.filter
        (fun e => e.2)).length = 1 := by
  have hany : (body ++ [t]).any isDoneLine = true := by
    simp [List.any_append, ht]
  have hfolded : foldedChunks decode (body ++ [t]) = foldedChunks decode body := by
    rw [foldedChunks_append decode body [t] hbody,
        foldedChunks_done_cons decode t [] ht]
    simp
  have hev : (ParseStreamResponseWithCallback decode (body ++ [t]) none).events =
      (((foldedChunks decode body).map contentOf).filter (fun s => s ≠ "")).map
        (fun s => (s, false)) ++ [("", true)] := by
    rw [parse_spec]
    simp [hany, hfolded, flatten_chunkEvents]
  refine ⟨hev, ?_⟩
  rw [hev]
  simp [List.filter_append, List.filter_map, Function.comp_def]

/-- Claim C3, witness instantiation (the spec's end-to-end example). -/
theorem C3_terminator_dispatch_witness :
    (ParseStreamResponseWithCallback sampleDecode
        (["data: {1}", "data: {2}"] ++ ["data: [DONE]"]) none).events =
      (((foldedChunks sampleDecode ["data: {1}", "data: {2}"]).map contentOf).filter
          (fun s => s ≠ "")).map (fun s => (s, false)) ++ [("", true)] ∧
    (((ParseStreamResponseWithCallback sampleDecode
        (["data: {1}", "data: {2}"] ++ ["data: [DONE]"]) none).events.filter
        (fun e => e.2)).length = 1) :=
  C3_terminator_dispatch sampleDecode ["data: {1}", "data: {2}"]
    "data: [DONE]" (by decide) (by decide)

/-- Claim C4, counterexample.  The claim classifies a line as the
terminator exactly when it equals the sentinel after trimming only
trailing line terminators.  The raw line `" data: [DONE]"` ends in `']'`
(so trailing-terminator trimming leaves it untouched) and differs from
the sentinel, yet the decoder stops on it: the following well-formed
chunk line is never decoded (empty result, no logs) and the finished
notification fires. -/
theorem C4_terminator_classification_counterexample :
    (" data: [DONE]" : String) ≠ "data: [DONE]" ∧
    (" data: [DONE]" : String).data.getLast? = some ']' ∧
    ParseStreamResponseWithCallback sampleDecode
        [" data: [DONE]", "data: {1}"] none =
      ⟨Except.ok
        { id := "", object := "", created := 0, model := "",
          choices := [{ index := 0,
                        message := { role := "assistant", content := "" },
                        finishReason := "" }],
          usage := { promptTokens := 0, completionTokens := 0,
                     totalTokens := 0 } },
       [("", true)], []⟩ := by
  decide

/-- Claim C4 (amended): a line is classified as the terminator exactly
when it equals `data: [DONE]` after `strings.TrimSpace` (leading and
trailing whitespace removed); on the first such line, and only there,
the decoder stops: lines after it are never read, the finished
notification fires, and a stream with no such line never produces a
finished notification. -/
theorem C4_terminator_classification (decode : String → Option StreamChunk)
    (pre : List String) (raw : String) (post : List String)
    (hpre : ∀ l ∈ pre, isDoneLine l = false)
    (hraw : goTrimSpace raw = "data: [DONE]") :
    ParseStreamResponseWithCallback decode (pre ++ raw :: post) none =
      ParseStreamResponseWithCallback decode (pre ++ [raw]) none ∧
    ("", true) ∈ (ParseStreamResponseWithCallback decode (pre ++ raw :: post) none).events ∧
    (∀ lines' : List String, (∀ l ∈ lines', goTrimSpace l ≠ "data: [DONE]") →
      ("", true) ∉ (ParseStreamResponseWithCallback decode lines' none).events) := by
  have hdone : isDoneLine raw = true := by simp [isDoneLine, hraw]
  have hany : ∀ rest : List String,
      (pre ++ raw :: rest).any isDoneLine = true := by
    intro rest; simp [List.any_append, hdone]
  have hfolded : ∀ rest : List String,
      foldedChunks decode (pre ++ raw :: rest) = foldedChunks decode pre := by
    intro rest
    rw [foldedChunks_append decode pre (raw :: rest) hpre,
        foldedChunks_done_cons decode raw rest hdone]
    simp
  have hskip : ∀ rest : List String,
      skippedPayloads decode (pre ++ raw :: rest) = skippedPayloads decode pre := by
    intro rest
    rw [skippedPayloads_append decode pre (raw :: rest) hpre,
        skippedPayloads_done_cons decode raw rest hdone]
    simp
  refine ⟨?_, ?_, ?_⟩
  · rw [parse_spec, parse_spec]
    have h1 := hany post
    have h2 := hany []
    have h3 := hfolded post
    have h4 := hfolded []
    have h5 := hskip post
    have h6 := hskip []
    simp only [h1, h2, h3, h4, h5, h6]
  · rw [parse_spec]
    simp [hany post]
  · intro lines' hno
    have hany' : lines'.any isDoneLine = false := by
      rw [List.any_eq_false]
      intro x hx
      simp [isDoneLine, hno x hx]
    rw [parse_spec]
    simp [hany', flatten_chunkEvents]

/-- Claim C4, witness instantiation. -/
theorem C4_terminator_classification_witness :
    ParseStreamResponseWithCallback sampleDecode
        ["data: {1}", "data: [DONE]", "data: {2}"] none =
      ParseStreamResponseWithCallback sampleDecode
        ["data: {1}", "data: [DONE]"] none ∧
    ("", true) ∈ (ParseStreamResponseWithCallback sampleDecode
        ["data: {1}", "data: [DONE]", "data: {2}"] none).events ∧
    (∀ lines' : List String, (∀ l ∈ lines', goTrimSpace l ≠ "data: [DONE]") →
      ("", true) ∉ (ParseStreamResponseWithCallback sampleDecode lines' none).events) :=
  C4_terminator_classification sampleDecode ["data: {1}"] "data: [DONE]"
    ["data: {2}"] (by decide) (by decide)

/-- Claim C5: a malformed `data:` line sandwiched between two valid
chunk lines does not abort the decode: result and notifications are the
same as for the stream without the malformed line (so the final content
is the concatenation of the valid fragments only), the offending payload
is recorded in the warning log, and the decode still returns without
error. -/
theorem C5_malformed_resilience (decode : String → Option StreamChunk)
    (front : List String) (l1 lb l2 : String) (back : List String)
    (c1 c2 : StreamChunk)
    (hfront : ∀ l ∈ front, isDoneLine l = false)
    (h1 : IsChunkLine decode l1 c1)
    (hb : IsMalformedLine decode lb)
    (h2 : IsChunkLine decode l2 c2) :
    (ParseStreamResponseWithCallback decode (front ++ l1 :: lb :: l2 :: back) none).result =
      (ParseStreamResponseWithCallback decode (front ++ l1 :: l2 :: back) none).result ∧
    (ParseStreamResponseWithCallback decode (front ++ l1 :: lb :: l2 :: back) none).events =
      (ParseStreamResponseWithCallback decode (front ++ l1 :: l2 :: back) none).events ∧
    goSliceFrom (goTrimSpace lb) 6 ∈
      (ParseStreamResponseWithCallback decode (front ++ l1 :: lb :: l2 :: back) none).logs ∧
    (ParseStreamResponseWithCallback decode (front ++ l1 :: lb :: l2 :: back) none).result =
      Except.ok (assembled (foldedChunks decode (front ++ l1 :: l2 :: back))) := by
  have hfold1 : foldedChunks decode (front ++ l1 :: lb :: l2 :: back) =
      foldedChunks decode front ++ c1 :: c2 :: foldedChunks decode back := by
    rw [foldedChunks_append decode front _ hfront,
        foldedChunks_cons_chunk _ h1, foldedChunks_cons_malformed _ hb,
        foldedChunks_cons_chunk _ h2]
  have hfold2 : foldedChunks decode (front ++ l1 :: l2 :: back) =
      foldedChunks decode front ++ c1 :: c2 :: foldedChunks decode back := by
    rw [foldedChunks_append decode front _ hfront,
        foldedChunks_cons_chunk _ h1, foldedChunks_cons_chunk _ h2]
  have hany : (front ++ l1 :: lb :: l2 :: back).any isDoneLine =
      (front ++ l1 :: l2 :: back).any isDoneLine := by
    simp [List.any_append, isDoneLine_false_of_chunk h1,
      isDoneLine_false_of_malformed hb, isDoneLine_false_of_chunk h2]
  have hskips : skippedPayloads decode (front ++ l1 :: lb :: l2 :: back) =
      skippedPayloads decode front ++ goSliceFrom (goTrimSpace lb) 6 ::
        skippedPayloads decode (l2 :: back) := by
    rw [skippedPayloads_append decode front _ hfront,
        skippedPayloads_cons_chunk _ h1, skippedPayloads_cons_malformed _ hb]
  refine ⟨?_, ?_, ?_, ?_⟩
  · rw [parse_spec, parse_spec]
    simp only [hfold1, hfold2]
  · rw [parse_spec, parse_spec]
    simp only [hfold1, hfold2, hany]
  · rw [parse_spec]
    simp only [hskips]
    simp
  · rw [parse_spec]
    simp only [hfold1, hfold2]

/-- Claim C5, witness instantiation. -/
theorem C5_malformed_resilience_witness :
    (ParseStreamResponseWithCallback sampleDecode
        ["data: {1}", "data: bad", "data: {2}"] none).result =
      (ParseStreamResponseWithCallback sampleDecode
        ["data: {1}", "data: {2}"] none).result ∧
    (ParseStreamResponseWithCallback sampleDecode
        ["data: {1}", "data: bad", "data: {2}"] none).events =
      (ParseStreamResponseWithCallback sampleDecode
        ["data: {1}", "data: {2}"] none).events ∧
    goSliceFrom (goTrimSpace "data: bad") 6 ∈
      (ParseStreamResponseWithCallback sampleDecode
        ["data: {1}", "data: bad", "data: {2}"] none).logs ∧
    (ParseStreamResponseWithCallback sampleDecode
        ["data: {1}", "data: bad", "data: {2}"] none).result =
      Except.ok (assembled (foldedChunks sampleDecode ["data: {1}", "data: {2}"])) :=
  C5_malformed_resilience sampleDecode [] "data: {1}" "data: bad" "data: {2}" []
    chunk1 chunk2 (by decide)
    (by refine ⟨by decide, by decide, by decide, by decide⟩)
    (by refine ⟨by decide, by decide, by decide, by decide⟩)
    (by refine ⟨by decide, by decide, by decide, by decide⟩)

/-- Claim C6: when the stream ends without any terminator line, the
decode returns, with no error, the result assembled from everything
folded so far, and the notifier is never invoked with `finished=true`. -/
theorem C6_no_terminator_tolerance (decode : String → Option StreamChunk)
    (lines : List String) (h : ∀ l ∈ lines, isDoneLine l = false) :
    (ParseStreamResponseWithCallback decode lines none).result =
      Except.ok (assembled (foldedChunks decode lines)) ∧
    ∀ ev ∈ (ParseStreamResponseWithCallback decode lines none).events,
      ev.2 = false := by
  have hany : lines.any isDoneLine = false := by
    rw [List.any_eq_false]
    intro x hx
    simp [h x hx]
  refine ⟨by rw [parse_spec], ?_⟩
  rw [parse_spec]
  simp only [hany, flatten_chunkEvents, Bool.false_eq_true, if_false,
    List.append_nil]
  intro ev hev
  rcases List.mem_map.mp hev with ⟨s, -, rfl⟩
  rfl

/-- Claim C6, witness instantiation. -/
theorem C6_no_terminator_tolerance_witness :
    (ParseStreamResponseWithCallback sampleDecode
        ["data: {1}", "data: {2}"] none).result =
      Except.ok (assembled (foldedChunks sampleDecode ["data: {1}", "data: {2}"])) ∧
    ∀ ev ∈ (ParseStreamResponseWithCallback sampleDecode
        ["data: {1}", "data: {2}"] none).events, ev.2 = false :=
  C6_no_terminator_tolerance sampleDecode ["data: {1}", "data: {2}"] (by decide)

/-- Claim C7: the final finish reason is the last non-null
`finish_reason` observed across the folded chunks' first choices (`""`
when none was observed), and the final usage is the last non-null
`usage` so observed, overwritten wholesale (all-zero when none). -/
theorem C7_last_write_wins (decode : String → Option StreamChunk)
    (lines : List String) :
    (ParseStreamResponseWithCallback decode lines none).result =
      Except.ok (assembled (foldedChunks decode lines)) ∧
    (assembled (foldedChunks decode lines)).choices.map
        (fun c => c.finishReason) =
      [(((foldedChunks decode lines).filterMap frOf).getLast?).getD ""] ∧
    (assembled (foldedChunks decode lines)).usage =
      (((foldedChunks decode lines).filterMap usageOf).getLast?).getD
        { promptTokens := 0, completionTokens := 0, totalTokens := 0 } := by
  have hfr : (foldedChunks decode lines).foldl accumFR "" =
      (((foldedChunks decode lines).filterMap frOf).getLast?).getD "" :=
    foldl_getD_getLast frOf (foldedChunks decode lines) ""
  have hus : (foldedChunks decode lines).foldl accumUsage
        { promptTokens := 0, completionTokens := 0, totalTokens := 0 } =
      (((foldedChunks decode lines).filterMap usageOf).getLast?).getD
        { promptTokens := 0, completionTokens := 0, totalTokens := 0 } :=
    foldl_getD_getLast usageOf (foldedChunks decode lines) _
  refine ⟨by rw [parse_spec], ?_, ?_⟩
  · simp only [assembled, List.map_cons, List.map_nil]
    rw [hfr]
  · simp only [assembled]
    rw [hus]

/-- Claim C8: a stream with zero lines yields, without error, a result
with empty content, absent (empty-string) finish reason and all-zero
usage, for both decoders; no callback fires and nothing is logged. -/
theorem C8_empty_stream (decode : String → Option StreamChunk) :
    ParseStreamResponseWithCallback decode [] none =
      ⟨Except.ok
        { id := "", object := "", created := 0, model := "",
          choices := [{ index := 0,
                        message := { role := "assistant", content := "" },
                        finishReason := "" }],
          usage := { promptTokens := 0, completionTokens := 0,
                     totalTokens := 0 } },
       [], []⟩ ∧
    ParseStreamResponse decode [] none =
      Except.ok
        { id := "", object := "", created := 0, model := "",
          choices := [{ index := 0,
                        message := { role := "assistant", content := "" },
                        finishReason := "" }],
          usage := { promptTokens := 0, completionTokens := 0,
                     totalTokens := 0 } } :=
  ⟨rfl, rfl⟩

/-- Claim C9: whenever a decode returns without error — terminator seen,
end-of-stream, or empty stream — the returned result has a non-empty
choices list (in fact exactly one choice) whose head has index `0` and
the assistant role. -/
theorem C9_choices_invariant (decode : String → Option StreamChunk)
    (lines : List String) (scanErr : Option String) (r : ResponseBody)
    (h : (ParseStreamResponseWithCallback decode lines scanErr).result =
      Except.ok r) :
    r.choices ≠ [] ∧
    ∃ ch : Choice, r.choices = [ch] ∧ ch.index = 0 ∧
      ch.message.role = AssistantRole := by
  rw [parse_spec] at h
  have hr : r = assembled (foldedChunks decode lines) := by
    cases scanErr with
    | none => exact (Except.ok.inj h).symm
    | some e =>
      cases hany : lines.any isDoneLine with
      | false => rw [hany] at h; simp at h
      | true => rw [hany] at h; exact (Except.ok.inj h).symm
  subst hr
  exact ⟨by simp [assembled], ⟨_, rfl, rfl, rfl⟩⟩

/-- The assembled result for the witness stream of claim C9. -/
def sampleResult : ResponseBody :=
  { id := "c1", object := "chat.completion", created := 1, model := "m",
    choices := [{ index := 0,
                  message := { role := "assistant", content := "Hi" },
                  finishReason := "" }],
    usage := { promptTokens := 0, completionTokens := 0, totalTokens := 0 } }

/-- Claim C9, witness instantiation. -/
theorem C9_choices_invariant_witness :
    sampleResult.choices ≠ [] ∧
    ∃ ch : Choice, sampleResult.choices = [ch] ∧ ch.index = 0 ∧
      ch.message.role = AssistantRole :=
  C9_choices_invariant sampleDecode ["data: {1}", "data: [DONE]"] none
    sampleResult (by decide)

/-- Claim C10: on every input, the callback-free decoder returns exactly
the result (and error outcome) of the callback decoder — the two are
equivalent with notifications suppressed. -/
theorem C10_callback_equivalence (decode : String → Option StreamChunk)
    (lines : List String) (scanErr : Option String) :
    ParseStreamResponse decode lines scanErr =
      (ParseStreamResponseWithCallback decode lines scanErr).result := by
  unfold ParseStreamResponse ParseStreamResponseWithCallback
  rw [runLoopNC_spec]
  cases scanErr with
  | none => rfl
  | some e =>
    cases hsd : (runLoop decode lines initState).sawDone <;> simp [hsd]
